import Mathlib

/-!
Verification of the route-planning state engine of the mapbox-react-ts
repository.  The definitions below are a shallow embedding of the
TypeScript source: coordinates are rational pairs, GeoJSON line-string
geometries are coordinate lists, optional/nullable fields are `Option`,
and the outcome of each external network call is passed in explicitly
(`none` models a transport error / thrown exception, `some` models a
parsed JSON payload).

Two aspects of the source are modelled with particular care because the
claims turn on them:

* the asynchronous write-backs: the fetch effect and the snap handlers
  check their guards when a request is *issued* (before the `await`) and
  apply the response *unconditionally* when it lands, so issuance and
  arrival are separate events here, linked by in-flight request
  counters that a promotion reset does not clear;
* the per-render lifetime of the component body: `reverseGeocodeCache`
  (`const new Map()`) and the lodash-debounced snap function are rebuilt
  on every React re-render, so neither cache entries nor pending
  debounce timers survive from one render cycle into the next handler's
  closure.
-/

/-- A map coordinate, `[lng, lat]` in the source. -/
abbrev Coord : Type := ℚ × ℚ

/-- A GeoJSON line-string geometry, represented by its coordinate list. -/
abbrev Geometry : Type := List Coord

/-- Waypoint from `interfaces.tsx`: coordinates plus a resolved address. -/
structure Waypoint where
  coordinates : Coord
  address : String
deriving DecidableEq, Repr

/-- CurrentRoute from `interfaces.tsx`: the route under construction.
Nullable fields are options; `geometry` is set only by the fetch effect. -/
structure CurrentRoute where
  id : Nat
  origin : Option Waypoint
  destination : Option Waypoint
  rerouteSnapPoint : Option Coord
  geometry : Option Geometry
deriving DecidableEq, Repr

/-- Route from `interfaces.tsx`: a saved route; both endpoints mandatory. -/
structure Route where
  id : Nat
  origin : Waypoint
  destination : Waypoint
  geometry : Geometry
deriving DecidableEq, Repr

/-- The state the claims are about: the App component state of
`App.tsx` (current route, saved-route list, id counter) together with
the numbers of in-flight directions and map-matching requests — requests
that were issued but whose responses have not landed yet.  The source
never cancels a request, so these survive every state update, including
the promotion reset. -/
structure AppState where
  currentRoute : CurrentRoute
  routes : List Route
  routeCounter : Nat
  pendingFetches : Nat
  pendingSnaps : Nat
deriving DecidableEq, Repr

/-- Initial component state of `App.tsx`: `currentRoute` starts with
`id: 0` and all nullable fields `null`; `routes` is `[]`; `routeCounter`
starts at `1`; nothing is in flight. -/
def initState : AppState :=
  { currentRoute :=
      { id := 0, origin := none, destination := none
        rerouteSnapPoint := none, geometry := none }
    routes := []
    routeCounter := 1
    pendingFetches := 0
    pendingSnaps := 0 }

/-- The Save Route button's onClick handler (`App.tsx` lines 447-483):
if origin, destination and geometry are all non-null it appends a new
saved route with id `routeCounter`, resets the current route to an empty
record with id `routeCounter + 1`, and bumps the counter; otherwise it
does nothing (the button is also disabled in that case).  In-flight
requests are untouched: nothing cancels them. -/
def saveRoute (s : AppState) : AppState :=
  match s.currentRoute.origin, s.currentRoute.destination,
        s.currentRoute.geometry with
  | some o, some d, some g =>
      { s with
        currentRoute :=
          { id := s.routeCounter + 1, origin := none, destination := none
            rerouteSnapPoint := none, geometry := none }
        routes := s.routes ++
          [{ id := s.routeCounter, origin := o, destination := d
             geometry := g }]
        routeCounter := s.routeCounter + 1 }
  | _, _, _ => s

/-- The guard of the Save Route handler: all three fields non-null. -/
def completeCurrent (s : AppState) : Prop :=
  s.currentRoute.origin ≠ none ∧ s.currentRoute.destination ≠ none ∧
    s.currentRoute.geometry ≠ none

instance (s : AppState) : Decidable (completeCurrent s) :=
  inferInstanceAs (Decidable (_ ≠ _ ∧ _ ≠ _ ∧ _ ≠ _))

/-- The asynchronous continuation of the fetch-route effect of `App.tsx`
(lines 144-158): once the directions response lands it is applied to
whatever the current route is at that moment — the endpoint guard was
checked only when the request was issued, before the `await`, and the
continuation's `setCurrentRoute` runs unconditionally.  `resp` is the
parsed response (`none` = transport error caught by the try/catch,
`some rs` = payload whose `routes` field is `rs`).  Geometry is
overwritten only when the `routes` array is non-empty; the second
component counts the non-fatal notices emitted (the catch branch's
single `console.error`). -/
def applyFetchResponse (cur : CurrentRoute)
    (resp : Option (List Geometry)) : CurrentRoute × Nat :=
  match resp with
  | some (g :: _) => ({ cur with geometry := some g }, 0)
  | some [] => (cur, 0)
  | none => (cur, 1)

/-- Events of the route-collection state machine.  Synchronous handlers
are single events; each asynchronous interaction is split into its
issuance (guard checked, request counter bumped) and its arrival (the
response applied to the then-current state, unconditionally), matching
the source's guard-before-await structure.  `removeSaved` is the
`removeRoute` handler of the saved-routes variant source file. -/
inductive Op where
  | setOrigin (c : Coord) (addr : String)
  | setDestination (c : Coord) (addr : String)
  | dragOrigin (c : Coord)
  | dragDestination (c : Coord)
  | snapIssue
  | snapArrive (p : Coord)
  | fetchArrive (resp : Option (List Geometry))
  | save
  | removeSaved (i : Nat)
deriving DecidableEq, Repr

/-- The handler bodies, before the reactive fetch effect is accounted
for.  `setOrigin`/`setDestination` are the context-menu and
address-entry setters (they replace the waypoint, keeping every other
field); `dragOrigin`/`dragDestination` are `handleCurrentMarkerDrag`
(the old address is kept, with the falsy-string fallback to "Unknown
Address"); `snapIssue` is `handleMouseUp` / a debounce fire of
`handleMouseMove` starting a map-matching request — guarded by
`currentRoute.geometry` being non-null *at issue time*; `snapArrive` is
the `.then` of that request writing the snapped point unconditionally;
`fetchArrive` is the fetch effect's continuation applying a directions
response unconditionally; `save` is the Save Route handler;
`removeSaved` is `removeRoute`, a `splice(index, 1)`.  Arrival events
with no request in flight cannot occur and are no-ops. -/
def rawStep (s : AppState) : Op → AppState
  | .setOrigin c addr =>
      { s with currentRoute :=
          { s.currentRoute with origin := some ⟨c, addr⟩ } }
  | .setDestination c addr =>
      { s with currentRoute :=
          { s.currentRoute with destination := some ⟨c, addr⟩ } }
  | .dragOrigin c =>
      let addr := match s.currentRoute.origin with
        | some w => if w.address = "" then "Unknown Address" else w.address
        | none => "Unknown Address"
      { s with currentRoute :=
          { s.currentRoute with origin := some ⟨c, addr⟩ } }
  | .dragDestination c =>
      let addr := match s.currentRoute.destination with
        | some w => if w.address = "" then "Unknown Address" else w.address
        | none => "Unknown Address"
      { s with currentRoute :=
          { s.currentRoute with destination := some ⟨c, addr⟩ } }
  | .snapIssue =>
      if s.currentRoute.geometry.isSome then
        { s with pendingSnaps := s.pendingSnaps + 1 }
      else s
  | .snapArrive p =>
      if s.pendingSnaps ≠ 0 then
        { s with
          currentRoute :=
            { s.currentRoute with rerouteSnapPoint := some p }
          pendingSnaps := s.pendingSnaps - 1 }
      else s
  | .fetchArrive resp =>
      if s.pendingFetches ≠ 0 then
        { s with
          currentRoute := (applyFetchResponse s.currentRoute resp).1
          pendingFetches := s.pendingFetches - 1 }
      else s
  | .save => saveRoute s
  | .removeSaved i => { s with routes := s.routes.eraseIdx i }

/-- The reactive-dependency comparison of the fetch effect of `App.tsx`:
the effect re-runs when the origin coordinates, the destination
coordinates, or the reroute snap point of the current route changed. -/
def depsChanged (s t : AppState) : Prop :=
  s.currentRoute.origin.map Waypoint.coordinates ≠
    t.currentRoute.origin.map Waypoint.coordinates ∨
  s.currentRoute.destination.map Waypoint.coordinates ≠
    t.currentRoute.destination.map Waypoint.coordinates ∨
  s.currentRoute.rerouteSnapPoint ≠ t.currentRoute.rerouteSnapPoint

instance (s t : AppState) : Decidable (depsChanged s t) :=
  inferInstanceAs (Decidable (_ ≠ _ ∨ _ ≠ _ ∨ _ ≠ _))

theorem depsChanged_self (s : AppState) : ¬ depsChanged s s := by
  intro h
  rcases h with h | h | h <;> exact h rfl

/-- One step of the machine: the handler body followed by the fetch
effect it may trigger.  The effect (`App.tsx` lines 125-170) re-runs
when its dependencies changed and issues a directions request exactly
when both endpoints are present at that moment — the issue-time guard. -/
def step (s : AppState) (op : Op) : AppState :=
  if depsChanged s (rawStep s op) ∧
      (rawStep s op).currentRoute.origin ≠ none ∧
      (rawStep s op).currentRoute.destination ≠ none then
    { rawStep s op with
      pendingFetches := (rawStep s op).pendingFetches + 1 }
  else rawStep s op

/-- Run a sequence of events from the initial component state. -/
def runOps (ops : List Op) : AppState := ops.foldl step initState

/-- Every id visible in a state: the current route's id and the saved
routes' ids. -/
def allIds (s : AppState) : List Nat :=
  s.currentRoute.id :: s.routes.map Route.id

/-- A directions request was issued by the effect right after `op`. -/
def fetchIssued (s : AppState) (op : Op) : Prop :=
  (step s op).pendingFetches = (rawStep s op).pendingFetches + 1

instance (s : AppState) (op : Op) : Decidable (fetchIssued s op) :=
  inferInstanceAs
    (Decidable ((step s op).pendingFetches =
      (rawStep s op).pendingFetches + 1))

/-- Whether an event is a promotion fired while a request is still in
flight — the race that lets a late response land on the reset route. -/
def saveSafe (s : AppState) : Op → Bool
  | .save => decide (s.pendingFetches = 0) && decide (s.pendingSnaps = 0)
  | _ => true

/-- The run never promotes while a directions or map-matching request is
in flight. -/
def NoSaveWhileInFlight : AppState → List Op → Bool
  | _, [] => true
  | s, op :: rest => saveSafe s op && NoSaveWhileInFlight (step s op) rest

/-- On a partial current route the Save Route handler leaves the state
unchanged. -/
theorem saveRoute_of_not_complete (s : AppState) (h : ¬ completeCurrent s) :
    saveRoute s = s := by
  unfold saveRoute
  rcases ho : s.currentRoute.origin with _ | o
  · simp
  rcases hd : s.currentRoute.destination with _ | d
  · simp
  rcases hg : s.currentRoute.geometry with _ | g
  · simp
  · exact absurd ⟨by simp [ho], by simp [hd], by simp [hg]⟩ h

/-- On a complete current route the Save Route handler appends the saved
route and resets the current one, leaving in-flight requests alone. -/
theorem saveRoute_of_complete (s : AppState) (o d : Waypoint) (g : Geometry)
    (ho : s.currentRoute.origin = some o)
    (hd : s.currentRoute.destination = some d)
    (hg : s.currentRoute.geometry = some g) :
    saveRoute s =
      { s with
        currentRoute :=
          { id := s.routeCounter + 1, origin := none, destination := none
            rerouteSnapPoint := none, geometry := none }
        routes := s.routes ++
          [{ id := s.routeCounter, origin := o, destination := d
             geometry := g }]
        routeCounter := s.routeCounter + 1 } := by
  unfold saveRoute
  rw [ho, hd, hg]

/-- All fields of the current route other than `geometry` are untouched
when a directions response is applied. -/
theorem applyFetchResponse_fields (cur : CurrentRoute)
    (resp : Option (List Geometry)) :
    (applyFetchResponse cur resp).1.id = cur.id ∧
    (applyFetchResponse cur resp).1.origin = cur.origin ∧
    (applyFetchResponse cur resp).1.destination = cur.destination ∧
    (applyFetchResponse cur resp).1.rerouteSnapPoint =
      cur.rerouteSnapPoint := by
  unfold applyFetchResponse
  rcases resp with _ | rs
  · exact ⟨rfl, rfl, rfl, rfl⟩
  · rcases rs with _ | ⟨g, gs⟩ <;> exact ⟨rfl, rfl, rfl, rfl⟩

/-- Applying a directions response either leaves the geometry alone or
overwrites it with the first route of the response. -/
theorem applyFetchResponse_geometry (cur : CurrentRoute)
    (resp : Option (List Geometry)) :
    (applyFetchResponse cur resp).1.geometry = cur.geometry ∨
    ∃ g, (applyFetchResponse cur resp).1.geometry = some g := by
  unfold applyFetchResponse
  rcases resp with _ | rs
  · exact Or.inl rfl
  · rcases rs with _ | ⟨g, gs⟩
    · exact Or.inl rfl
    · exact Or.inr ⟨g, rfl⟩

theorem rawStep_snapIssue_pos (s : AppState)
    (hg : s.currentRoute.geometry.isSome) :
    rawStep s .snapIssue = { s with pendingSnaps := s.pendingSnaps + 1 } := by
  show (if s.currentRoute.geometry.isSome then _ else s) = _
  rw [if_pos hg]

theorem rawStep_snapIssue_neg (s : AppState)
    (hg : ¬ s.currentRoute.geometry.isSome) :
    rawStep s .snapIssue = s := by
  show (if s.currentRoute.geometry.isSome then _ else s) = s
  rw [if_neg hg]

theorem rawStep_snapArrive_pos (s : AppState) (p : Coord)
    (hp : s.pendingSnaps ≠ 0) :
    rawStep s (.snapArrive p) =
      { s with
        currentRoute := { s.currentRoute with rerouteSnapPoint := some p }
        pendingSnaps := s.pendingSnaps - 1 } := by
  show (if s.pendingSnaps ≠ 0 then _ else s) = _
  rw [if_pos hp]

theorem rawStep_snapArrive_neg (s : AppState) (p : Coord)
    (hp : ¬ s.pendingSnaps ≠ 0) :
    rawStep s (.snapArrive p) = s := by
  show (if s.pendingSnaps ≠ 0 then _ else s) = s
  rw [if_neg hp]

theorem rawStep_fetchArrive_pos (s : AppState)
    (resp : Option (List Geometry)) (hp : s.pendingFetches ≠ 0) :
    rawStep s (.fetchArrive resp) =
      { s with
        currentRoute := (applyFetchResponse s.currentRoute resp).1
        pendingFetches := s.pendingFetches - 1 } := by
  show (if s.pendingFetches ≠ 0 then _ else s) = _
  rw [if_pos hp]

theorem rawStep_fetchArrive_neg (s : AppState)
    (resp : Option (List Geometry)) (hp : ¬ s.pendingFetches ≠ 0) :
    rawStep s (.fetchArrive resp) = s := by
  show (if s.pendingFetches ≠ 0 then _ else s) = s
  rw [if_neg hp]

/-- The effect wrapper only touches the in-flight fetch counter. -/
theorem step_currentRoute (s : AppState) (op : Op) :
    (step s op).currentRoute = (rawStep s op).currentRoute := by
  unfold step
  split <;> rfl

theorem step_routes (s : AppState) (op : Op) :
    (step s op).routes = (rawStep s op).routes := by
  unfold step
  split <;> rfl

theorem step_routeCounter (s : AppState) (op : Op) :
    (step s op).routeCounter = (rawStep s op).routeCounter := by
  unfold step
  split <;> rfl

theorem step_pendingSnaps (s : AppState) (op : Op) :
    (step s op).pendingSnaps = (rawStep s op).pendingSnaps := by
  unfold step
  split <;> rfl

/-- A step either issues no request, or issues exactly one after an
event that changed the effect's dependencies with both endpoints set. -/
theorem step_char (s : AppState) (op : Op) :
    step s op = rawStep s op ∨
    (step s op =
        { rawStep s op with
          pendingFetches := (rawStep s op).pendingFetches + 1 } ∧
      (rawStep s op).currentRoute.origin ≠ none ∧
      (rawStep s op).currentRoute.destination ≠ none) := by
  unfold step
  split
  · next hc => exact Or.inr ⟨rfl, hc.2.1, hc.2.2⟩
  · exact Or.inl rfl

theorem step_fire (s : AppState) (op : Op)
    (hc : depsChanged s (rawStep s op))
    (ho : (rawStep s op).currentRoute.origin ≠ none)
    (hd : (rawStep s op).currentRoute.destination ≠ none) :
    step s op =
      { rawStep s op with
        pendingFetches := (rawStep s op).pendingFetches + 1 } := by
  unfold step
  rw [if_pos ⟨hc, ho, hd⟩]

theorem depsChanged_step (s : AppState) (op : Op) :
    depsChanged s (step s op) ↔ depsChanged s (rawStep s op) := by
  unfold depsChanged
  rw [step_currentRoute]

/-- Generic invariant preservation along a run of the state machine. -/
theorem foldl_step_inv (P : AppState → Prop)
    (hstep : ∀ s op, P s → P (step s op)) :
    ∀ (ops : List Op) (s : AppState), P s → P (ops.foldl step s) := by
  intro ops
  induction ops with
  | nil => intro s hs; exact hs
  | cons op rest ih => intro s hs; exact ih (step s op) (hstep s op hs)

/-- Invariant preservation for runs that never promote while a request
is in flight. -/
theorem foldl_step_inv_guarded (P : AppState → Prop)
    (hstep : ∀ s op, saveSafe s op = true → P s → P (step s op)) :
    ∀ (ops : List Op) (s : AppState),
      NoSaveWhileInFlight s ops = true → P s → P (ops.foldl step s) := by
  intro ops
  induction ops with
  | nil => intro s _ hs; exact hs
  | cons op rest ih =>
      intro s hno hs
      have hno' : (saveSafe s op &&
          NoSaveWhileInFlight (step s op) rest) = true := hno
      have hparts := Bool.and_eq_true_iff.mp hno'
      exact ih (step s op) hparts.2 (hstep s op hparts.1 hs)

/-- The id bookkeeping invariant: saved ids strictly increase along the
list, every saved id is below the counter, and the current route's id is
at most the counter. -/
def IdInv (s : AppState) : Prop :=
  List.Pairwise (· < ·) (s.routes.map Route.id) ∧
  (∀ r ∈ s.routes, r.id < s.routeCounter) ∧
  s.currentRoute.id ≤ s.routeCounter

theorem idInv_init : IdInv initState :=
  ⟨by simp [initState], by simp [initState], by simp [initState]⟩

theorem idInv_save (s : AppState) (h : IdInv s) : IdInv (saveRoute s) := by
  obtain ⟨h1, h2, h3⟩ := h
  by_cases hc : completeCurrent s
  · obtain ⟨ho, hd, hg⟩ := hc
    obtain ⟨o, ho⟩ := Option.ne_none_iff_exists'.mp ho
    obtain ⟨d, hd⟩ := Option.ne_none_iff_exists'.mp hd
    obtain ⟨g, hg⟩ := Option.ne_none_iff_exists'.mp hg
    rw [saveRoute_of_complete s o d g ho hd hg]
    refine ⟨?_, ?_, le_refl _⟩
    · simp only [List.map_append, List.map_cons, List.map_nil]
      rw [List.pairwise_append]
      refine ⟨h1, List.pairwise_singleton _ _, ?_⟩
      intro a ha b hb
      rw [List.mem_singleton] at hb
      subst hb
      obtain ⟨r, hr, rfl⟩ := List.mem_map.mp ha
      exact h2 r hr
    · intro r hr
      rcases List.mem_append.mp hr with hr | hr
      · exact Nat.lt_succ_of_lt (h2 r hr)
      · rw [List.mem_singleton] at hr
        subst hr
        exact Nat.lt_succ_self _
  · rw [saveRoute_of_not_complete s hc]; exact ⟨h1, h2, h3⟩

theorem idInv_rawStep (s : AppState) (op : Op) (h : IdInv s) :
    IdInv (rawStep s op) := by
  obtain ⟨h1, h2, h3⟩ := h
  cases op with
  | setOrigin c addr => exact ⟨h1, h2, h3⟩
  | setDestination c addr => exact ⟨h1, h2, h3⟩
  | dragOrigin c => exact ⟨h1, h2, h3⟩
  | dragDestination c => exact ⟨h1, h2, h3⟩
  | snapIssue =>
      show IdInv (if s.currentRoute.geometry.isSome then _ else s)
      split
      · exact ⟨h1, h2, h3⟩
      · exact ⟨h1, h2, h3⟩
  | snapArrive p =>
      show IdInv (if s.pendingSnaps ≠ 0 then _ else s)
      split
      · exact ⟨h1, h2, h3⟩
      · exact ⟨h1, h2, h3⟩
  | fetchArrive resp =>
      show IdInv (if s.pendingFetches ≠ 0 then _ else s)
      split
      · refine ⟨h1, h2, ?_⟩
        show (applyFetchResponse s.currentRoute resp).1.id ≤ s.routeCounter
        rw [(applyFetchResponse_fields s.currentRoute resp).1]
        exact h3
      · exact ⟨h1, h2, h3⟩
  | save => exact idInv_save s ⟨h1, h2, h3⟩
  | removeSaved i =>
      have hsub : List.Sublist ((s.routes.eraseIdx i).map Route.id)
          (s.routes.map Route.id) :=
        (List.eraseIdx_sublist s.routes i).map Route.id
      refine ⟨h1.sublist hsub, ?_, h3⟩
      intro r hr
      exact h2 r ((List.eraseIdx_sublist s.routes i).subset hr)

theorem idInv_step (s : AppState) (op : Op) (h : IdInv s) :
    IdInv (step s op) := by
  obtain ⟨h1, h2, h3⟩ := idInv_rawStep s op h
  refine ⟨?_, ?_, ?_⟩
  · rw [step_routes]; exact h1
  · rw [step_routes, step_routeCounter]; exact h2
  · rw [step_currentRoute, step_routeCounter]; exact h3

theorem idInv_runOps (ops : List Op) : IdInv (runOps ops) :=
  foldl_step_inv IdInv idInv_step ops initState idInv_init

/-- The counter never decreases across a handler body. -/
theorem counter_mono_raw (s : AppState) (op : Op) :
    s.routeCounter ≤ (rawStep s op).routeCounter := by
  cases op with
  | setOrigin c addr => exact le_refl _
  | setDestination c addr => exact le_refl _
  | dragOrigin c => exact le_refl _
  | dragDestination c => exact le_refl _
  | snapIssue =>
      show s.routeCounter ≤
        (if s.currentRoute.geometry.isSome then _ else s).routeCounter
      split
      · exact le_refl _
      · exact le_refl _
  | snapArrive p =>
      show s.routeCounter ≤
        (if s.pendingSnaps ≠ 0 then _ else s).routeCounter
      split
      · exact le_refl _
      · exact le_refl _
  | fetchArrive resp =>
      show s.routeCounter ≤
        (if s.pendingFetches ≠ 0 then _ else s).routeCounter
      split
      · exact le_refl _
      · exact le_refl _
  | save =>
      by_cases hc : completeCurrent s
      · obtain ⟨ho, hd, hg⟩ := hc
        obtain ⟨o, ho⟩ := Option.ne_none_iff_exists'.mp ho
        obtain ⟨d, hd⟩ := Option.ne_none_iff_exists'.mp hd
        obtain ⟨g, hg⟩ := Option.ne_none_iff_exists'.mp hg
        show s.routeCounter ≤ (saveRoute s).routeCounter
        rw [saveRoute_of_complete s o d g ho hd hg]
        exact Nat.le_succ _
      · show s.routeCounter ≤ (saveRoute s).routeCounter
        rw [saveRoute_of_not_complete s hc]
  | removeSaved i => exact le_refl _

theorem counter_mono_step (s : AppState) (op : Op) :
    s.routeCounter ≤ (step s op).routeCounter := by
  rw [step_routeCounter]
  exact counter_mono_raw s op

theorem counter_mono_foldl (suf : List Op) (s : AppState) :
    s.routeCounter ≤ (suf.foldl step s).routeCounter := by
  induction suf generalizing s with
  | nil => exact le_refl _
  | cons op rest ih =>
      exact le_trans (counter_mono_step s op) (ih (step s op))

/-- C2: along any event sequence from the initial state, no two saved
routes share an id; removing a saved route only deletes one entry, so
the remaining ids are a sublist of (hence unchanged relative to) the old
ones; and when the current route is complete, promoting it resets the
current route to an id strictly greater than every id visible in any
earlier state (every id previously assigned). -/
theorem saved_route_ids_spec (ops : List Op) :
    ((runOps ops).routes.map Route.id).Nodup ∧
    (∀ i, List.Sublist
      ((step (runOps ops) (.removeSaved i)).routes.map Route.id)
      ((runOps ops).routes.map Route.id)) ∧
    (∀ pre suf, ops = pre ++ suf → completeCurrent (runOps ops) →
      ∀ j ∈ allIds (runOps pre),
        j < (saveRoute (runOps ops)).currentRoute.id) := by
  obtain ⟨h1, h2, h3⟩ := idInv_runOps ops
  refine ⟨?_, ?_, ?_⟩
  · exact (h1.imp fun {a b} hab => Nat.ne_of_lt hab)
  · intro i
    rw [step_routes]
    exact (List.eraseIdx_sublist (runOps ops).routes i).map Route.id
  · intro pre suf hsplit hc j hj
    obtain ⟨ho, hd, hg⟩ := hc
    obtain ⟨o, ho⟩ := Option.ne_none_iff_exists'.mp ho
    obtain ⟨d, hd⟩ := Option.ne_none_iff_exists'.mp hd
    obtain ⟨g, hg⟩ := Option.ne_none_iff_exists'.mp hg
    rw [saveRoute_of_complete (runOps ops) o d g ho hd hg]
    have hcount : (runOps pre).routeCounter ≤ (runOps ops).routeCounter := by
      rw [hsplit]
      show (runOps pre).routeCounter ≤
        ((pre ++ suf).foldl step initState).routeCounter
      rw [List.foldl_append]
      exact counter_mono_foldl suf (runOps pre)
    have hj' : j ≤ (runOps pre).routeCounter := by
      obtain ⟨i1, i2, i3⟩ := idInv_runOps pre
      unfold allIds at hj
      rcases List.mem_cons.mp hj with hj0 | hjm
      · rw [hj0]; exact i3
      · obtain ⟨r, hr, hrid⟩ := List.mem_map.mp hjm
        rw [← hrid]
        exact le_of_lt (i2 r hr)
    calc j ≤ (runOps pre).routeCounter := hj'
    _ ≤ (runOps ops).routeCounter := hcount
    _ < (runOps ops).routeCounter + 1 := Nat.lt_succ_self _

/-- Witness for C2: a run that sets both endpoints and receives a
geometry; splitting it after the two endpoint events, the initial
current-route id 0 is indeed strictly below the id the promotion hands
the fresh current route. -/
theorem saved_route_ids_spec_witness :
    (0 : Nat) <
      (saveRoute (runOps
        [.setOrigin (0, 0) "a", .setDestination (1, 1) "b",
         .fetchArrive (some [[(0, 0), (1, 1)]])])).currentRoute.id := by
  refine (saved_route_ids_spec
      [.setOrigin (0, 0) "a", .setDestination (1, 1) "b",
       .fetchArrive (some [[(0, 0), (1, 1)]])]).2.2
      [.setOrigin (0, 0) "a", .setDestination (1, 1) "b"]
      [.fetchArrive (some [[(0, 0), (1, 1)]])] rfl ?_ 0 ?_
  · refine ⟨by decide, by decide, by decide⟩
  · show 0 ∈ allIds (runOps
      [.setOrigin (0, 0) "a", .setDestination (1, 1) "b"])
    decide

/-- C1: promoteCurrentToSaved (the Save Route handler) is a no-op unless
origin, destination and geometry are all non-null — on any partial state
the whole state (in particular the saved-route list length) is unchanged
— and when all three are present exactly one SavedRoute, built from the
current route with id `routeCounter`, is appended. -/
theorem promoteCurrentToSaved_guard (s : AppState) :
    (¬ completeCurrent s →
      saveRoute s = s ∧ (saveRoute s).routes.length = s.routes.length) ∧
    (∀ o d g, s.currentRoute.origin = some o →
      s.currentRoute.destination = some d →
      s.currentRoute.geometry = some g →
      (saveRoute s).routes =
        s.routes ++ [{ id := s.routeCounter, origin := o, destination := d
                       geometry := g }] ∧
      (saveRoute s).routes.length = s.routes.length + 1) := by
  constructor
  · intro hpart
    have he := saveRoute_of_not_complete s hpart
    exact ⟨he, by rw [he]⟩
  · intro o d g ho hd hg
    rw [saveRoute_of_complete s o d g ho hd hg]
    simp

/-- Witness for C1: evaluates the guard theorem on a concrete partial
state (no origin) and on a concrete complete state. -/
theorem promoteCurrentToSaved_guard_witness :
    (saveRoute initState).routes.length = initState.routes.length ∧
    (saveRoute
      { currentRoute :=
          { id := 0, origin := some ⟨(1, 2), "a"⟩
            destination := some ⟨(3, 4), "b"⟩
            rerouteSnapPoint := none, geometry := some [(1, 2), (3, 4)] }
        routes := [], routeCounter := 1, pendingFetches := 0
        pendingSnaps := 0 }).routes.length = 0 + 1 := by
  refine ⟨((promoteCurrentToSaved_guard initState).1 (by decide)).2, ?_⟩
  exact ((promoteCurrentToSaved_guard _).2 ⟨(1, 2), "a"⟩ ⟨(3, 4), "b"⟩
    [(1, 2), (3, 4)] rfl rfl rfl).2

/-- A concrete complete current route used by several evaluations. -/
def demoCurrent : CurrentRoute :=
  { id := 0, origin := some ⟨(0, 0), "a"⟩, destination := some ⟨(1, 1), "b"⟩
    rerouteSnapPoint := none, geometry := some [(0, 0), (1, 1)] }

/-- C3 counterexample: a directions response whose `routes` array is
empty leaves the geometry untouched but emits no notice at all — the
code's only notice is the single `console.error` of the catch branch,
and the empty-array case falls through silently — refuting the claimed
"exactly one" notice. -/
theorem empty_routes_no_notice_counterexample :
    (applyFetchResponse demoCurrent (some [])).1.geometry =
      demoCurrent.geometry ∧
    (applyFetchResponse demoCurrent (some [])).2 ≠ 1 := by decide

/-- C3 (amended): on an empty `routes` array or a transport failure the
current route's geometry is exactly what it was before the call — both
at the response-application level and across a whole machine step — and
no notice is emitted on an empty `routes` array while exactly one notice
is emitted on a transport failure of an issued request. -/
theorem fetch_failure_preserves_geometry (cur : CurrentRoute)
    (resp : Option (List Geometry)) (hfail : resp = some [] ∨ resp = none) :
    (applyFetchResponse cur resp).1.geometry = cur.geometry ∧
    (resp = some [] → (applyFetchResponse cur resp).2 = 0) ∧
    (resp = none → (applyFetchResponse cur resp).2 = 1) ∧
    (∀ s : AppState, (step s (.fetchArrive resp)).currentRoute.geometry =
      s.currentRoute.geometry) := by
  have hmach : ∀ s : AppState,
      (step s (.fetchArrive resp)).currentRoute.geometry =
        s.currentRoute.geometry := by
    intro s
    rw [step_currentRoute]
    by_cases hp : s.pendingFetches ≠ 0
    · rw [rawStep_fetchArrive_pos s resp hp]
      show (applyFetchResponse s.currentRoute resp).1.geometry =
        s.currentRoute.geometry
      rcases hfail with rfl | rfl
      · rfl
      · rfl
    · rw [rawStep_fetchArrive_neg s resp hp]
  rcases hfail with rfl | rfl
  · exact ⟨rfl, fun _ => rfl, fun h => absurd h (by simp), hmach⟩
  · exact ⟨rfl, fun h => absurd h (by simp), fun _ => rfl, hmach⟩

/-- Witness for C3 (amended): a transport failure on the demo route
keeps the geometry and emits exactly one notice. -/
theorem fetch_failure_preserves_geometry_witness :
    (applyFetchResponse demoCurrent none).1.geometry =
      demoCurrent.geometry ∧
    (applyFetchResponse demoCurrent none).2 = 1 :=
  ⟨(fetch_failure_preserves_geometry demoCurrent none (Or.inr rfl)).1,
   (fetch_failure_preserves_geometry demoCurrent none (Or.inr rfl)).2.2.1
     rfl⟩

/-- The route-snapping feature flag of `App.tsx`; `true` in the source. -/
def ENABLE_ROUTE_SNAPPING : Bool := true

/-- snapPointToRoad from `App.tsx` (lines 221-243).  `resp` is the
map-matching response: `none` models a thrown transport/parse error or a
missing `matchings` field, `some ms` the `matchings` array, each
matching represented by its geometry's coordinate list.  The result is
`none` exactly in the corner where the first matching's coordinate list
is empty (the JS code would hand `undefined` to its caller there). -/
def snapPointToRoad (point : Coord) (resp : Option (List (List Coord))) :
    Option Coord :=
  if ENABLE_ROUTE_SNAPPING = false then some point
  else
    match resp with
    | some ((c :: _) :: _) => some c
    | some ([] :: _) => none
    | some [] => some point
    | none => some point

/-- C9: snap returns the first matching's leading coordinate whenever
the response has at least one matching (with a non-empty coordinate
list), and returns the original point unchanged on transport failure or
when no matching is returned; being a total function of the response it
never fails its caller. -/
theorem snapPointToRoad_spec (point : Coord)
    (resp : Option (List (List Coord))) :
    (∀ c cs ms, resp = some ((c :: cs) :: ms) →
      snapPointToRoad point resp = some c) ∧
    (resp = some [] → snapPointToRoad point resp = some point) ∧
    (resp = none → snapPointToRoad point resp = some point) := by
  refine ⟨?_, ?_, ?_⟩
  · intro c cs ms h
    rw [h]
    rfl
  · intro h
    rw [h]
    rfl
  · intro h
    rw [h]
    rfl

/-- Witness for C9: a matched response snaps to its leading coordinate
and a failed response returns the input point. -/
theorem snapPointToRoad_spec_witness :
    snapPointToRoad (1, 1) (some [[(5, 5), (6, 6)]]) = some (5, 5) ∧
    snapPointToRoad (1, 1) none = some (1, 1) :=
  ⟨(snapPointToRoad_spec (1, 1) (some [[(5, 5), (6, 6)]])).1
      (5, 5) [(6, 6)] [] rfl,
   (snapPointToRoad_spec (1, 1) none).2.2 rfl⟩

/-- Key type of the reverse-geocode cache: both coordinates quantized. -/
abbrev GeoKey : Type := ℤ × ℤ

/-- One render cycle's reverse-geocode cache, an association list
standing for the source's string-keyed `Map`. -/
abbrev GeoCache : Type := List (GeoKey × String)

/-- Models `toFixed(5)`: rounding a coordinate to 5 decimal places
(round-half-up on the scaled value), the quantization used to build the
cache key. -/
def fix5 (x : ℚ) : ℤ := ⌊x * 100000 + 1 / 2⌋

/-- The cache key of `reverseGeocode`, built from the two quantized
coordinates (the source formats them into a string; the pair carries the
same information). -/
def geoKey (lng lat : ℚ) : GeoKey := (fix5 lng, fix5 lat)

/-- Lookup in the cache, modelling `Map.has` / `Map.get`. -/
def cacheLookup : GeoCache → GeoKey → Option String
  | [], _ => none
  | (k, v) :: rest, key => if k = key then some v else cacheLookup rest key

/-- One invocation of reverseGeocode from `App.tsx` (lines 99-122),
against the cache its closure sees: on a cache hit the cached address is
returned with no network call; on a miss one call is issued (`resp`:
`none` = transport error, `some fs` = the `features` list's
`place_name`s); a non-empty result is cached and returned, an empty
result or an error returns the sentinel without caching.  Result:
(address, cache after the call, number of network calls issued). -/
def reverseGeocode (cache : GeoCache) (lng lat : ℚ)
    (resp : Option (List String)) : String × GeoCache × Nat :=
  match cacheLookup cache (geoKey lng lat) with
  | some addr => (addr, cache, 0)
  | none =>
      match resp with
      | some (addr :: _) => (addr, (geoKey lng lat, addr) :: cache, 1)
      | some [] => ("Unknown Location", cache, 1)
      | none => ("Unknown Location", cache, 1)

/-- Within one invocation the lookup logic is correct: a cache hit
issues no network call and leaves the cache unchanged. -/
theorem reverseGeocode_cache_hit (c : GeoCache) (lng lat : ℚ)
    (resp : Option (List String)) (addr : String)
    (h : cacheLookup c (geoKey lng lat) = some addr) :
    reverseGeocode c lng lat resp = (addr, c, 0) := by
  unfold reverseGeocode
  rw [h]

/-- The cache lifetime as the program actually manages it:
`reverseGeocodeCache` is a plain `const new Map()` in the component body
(`App.tsx` line 46), so every React re-render rebuilds it empty, and the
state write-back that completes a resolution re-renders the component.
By the time a second resolution starts, its handler closes over a fresh
empty map, so both resolutions run against the empty cache.  The result
is the total number of reverse-geocode network calls issued. -/
def reverseGeocodeCallsAcrossRenders (lng1 lat1 lng2 lat2 : ℚ)
    (resp1 resp2 : Option (List String)) : Nat :=
  (reverseGeocode [] lng1 lat1 resp1).2.2 +
    (reverseGeocode [] lng2 lat2 resp2).2.2

/-- C4: the code defeats its own cache.  Two successful resolutions of
coordinates that agree after 5-decimal rounding (equal quantized keys)
issue two network calls, not the claimed one: the entry written by the
first resolution does not survive the re-render that its own address
write-back triggers.  Per call the lookup is correct (see
`reverseGeocode_cache_hit`); the bug is the per-render lifetime of the
`Map`, contradicting the cache's stated purpose of avoiding repeat
calls for the same area. -/
theorem reverseGeocode_cache_lost_across_renders :
    geoKey (1 + 1 / 1000000) 2 = geoKey (1 + 2 / 1000000) 2 ∧
    reverseGeocodeCallsAcrossRenders (1 + 1 / 1000000) 2
      (1 + 2 / 1000000) 2 (some ["X"]) (some ["X"]) = 2 := by
  constructor
  · rw [geoKey, geoKey, Prod.mk.injEq]
    unfold fix5
    norm_num
  · rfl

/-- Both endpoints of the current route are set. -/
abbrev EndpointsPresent (s : AppState) : Prop :=
  s.currentRoute.origin ≠ none ∧ s.currentRoute.destination ≠ none

/-- The endpoint-scope invariant maintained while no promotion crosses
an in-flight request: a non-null geometry, an in-flight directions
request, or an in-flight snap request each certify that both endpoints
are set. -/
def EndpointInv (s : AppState) : Prop :=
  (s.currentRoute.geometry ≠ none → EndpointsPresent s) ∧
  (s.pendingFetches ≠ 0 → EndpointsPresent s) ∧
  (s.pendingSnaps ≠ 0 → EndpointsPresent s)

theorem endpointInv_init : EndpointInv initState :=
  ⟨fun h => absurd rfl h, fun h => absurd rfl h, fun h => absurd rfl h⟩

theorem endpointInv_rawStep (s : AppState) (op : Op)
    (hsafe : saveSafe s op = true) (h : EndpointInv s) :
    EndpointInv (rawStep s op) := by
  obtain ⟨h1, h2, h3⟩ := h
  cases op with
  | setOrigin c addr =>
      exact ⟨fun hg => ⟨Option.some_ne_none _, (h1 hg).2⟩,
        fun hp => ⟨Option.some_ne_none _, (h2 hp).2⟩,
        fun hp => ⟨Option.some_ne_none _, (h3 hp).2⟩⟩
  | setDestination c addr =>
      exact ⟨fun hg => ⟨(h1 hg).1, Option.some_ne_none _⟩,
        fun hp => ⟨(h2 hp).1, Option.some_ne_none _⟩,
        fun hp => ⟨(h3 hp).1, Option.some_ne_none _⟩⟩
  | dragOrigin c =>
      exact ⟨fun hg => ⟨Option.some_ne_none _, (h1 hg).2⟩,
        fun hp => ⟨Option.some_ne_none _, (h2 hp).2⟩,
        fun hp => ⟨Option.some_ne_none _, (h3 hp).2⟩⟩
  | dragDestination c =>
      exact ⟨fun hg => ⟨(h1 hg).1, Option.some_ne_none _⟩,
        fun hp => ⟨(h2 hp).1, Option.some_ne_none _⟩,
        fun hp => ⟨(h3 hp).1, Option.some_ne_none _⟩⟩
  | snapIssue =>
      by_cases hg : s.currentRoute.geometry.isSome
      · rw [rawStep_snapIssue_pos s hg]
        exact ⟨h1, h2,
          fun _ => h1 (Option.isSome_iff_ne_none.mp hg)⟩
      · rw [rawStep_snapIssue_neg s hg]
        exact ⟨h1, h2, h3⟩
  | snapArrive p =>
      by_cases hp : s.pendingSnaps ≠ 0
      · rw [rawStep_snapArrive_pos s p hp]
        have he := h3 hp
        exact ⟨fun _ => he, fun _ => he, fun _ => he⟩
      · rw [rawStep_snapArrive_neg s p hp]
        exact ⟨h1, h2, h3⟩
  | fetchArrive resp =>
      by_cases hp : s.pendingFetches ≠ 0
      · rw [rawStep_fetchArrive_pos s resp hp]
        have he := h2 hp
        have ho : (applyFetchResponse s.currentRoute resp).1.origin ≠
            none := by
          rw [(applyFetchResponse_fields s.currentRoute resp).2.1]
          exact he.1
        have hd : (applyFetchResponse s.currentRoute resp).1.destination ≠
            none := by
          rw [(applyFetchResponse_fields s.currentRoute resp).2.2.1]
          exact he.2
        exact ⟨fun _ => ⟨ho, hd⟩, fun _ => ⟨ho, hd⟩, fun _ => ⟨ho, hd⟩⟩
      · rw [rawStep_fetchArrive_neg s resp hp]
        exact ⟨h1, h2, h3⟩
  | save =>
      have hsf : s.pendingFetches = 0 ∧ s.pendingSnaps = 0 := by
        have hparts := Bool.and_eq_true_iff.mp hsafe
        exact ⟨of_decide_eq_true hparts.1, of_decide_eq_true hparts.2⟩
      by_cases hc : completeCurrent s
      · obtain ⟨ho, hd, hg⟩ := hc
        obtain ⟨o, ho⟩ := Option.ne_none_iff_exists'.mp ho
        obtain ⟨d, hd⟩ := Option.ne_none_iff_exists'.mp hd
        obtain ⟨g, hg⟩ := Option.ne_none_iff_exists'.mp hg
        show EndpointInv (saveRoute s)
        rw [saveRoute_of_complete s o d g ho hd hg]
        exact ⟨fun hg' => absurd rfl hg', fun hp => absurd hsf.1 hp,
          fun hp => absurd hsf.2 hp⟩
      · show EndpointInv (saveRoute s)
        rw [saveRoute_of_not_complete s hc]
        exact ⟨h1, h2, h3⟩
  | removeSaved i => exact ⟨h1, h2, h3⟩

theorem endpointInv_step (s : AppState) (op : Op)
    (hsafe : saveSafe s op = true) (h : EndpointInv s) :
    EndpointInv (step s op) := by
  have hr := endpointInv_rawStep s op hsafe h
  rcases step_char s op with heq | ⟨heq, ho, hd⟩
  · rw [heq]; exact hr
  · rw [heq]
    exact ⟨fun hg => hr.1 hg, fun _ => ⟨ho, hd⟩, fun hp => hr.2.2 hp⟩

/-- After any event that changes the fetch effect's dependencies, the
geometry is either null or stale with a fresh directions request issued
— provided the endpoint-scope invariant holds before the event. -/
theorem depsChange_stale_or_refetch (s : AppState) (op : Op)
    (hinv : EndpointInv s) (hdc : depsChanged s (step s op)) :
    (step s op).currentRoute.geometry = none ∨ fetchIssued s op := by
  have hdcr : depsChanged s (rawStep s op) :=
    (depsChanged_step s op).mp hdc
  cases op with
  | setOrigin c addr =>
      by_cases hgm : s.currentRoute.geometry = none
      · refine Or.inl ?_
        rw [step_currentRoute]
        exact hgm
      · obtain ⟨ho, hd⟩ := hinv.1 hgm
        refine Or.inr ?_
        unfold fetchIssued
        rw [step_fire s _ hdcr (Option.some_ne_none _) hd]
  | setDestination c addr =>
      by_cases hgm : s.currentRoute.geometry = none
      · refine Or.inl ?_
        rw [step_currentRoute]
        exact hgm
      · obtain ⟨ho, hd⟩ := hinv.1 hgm
        refine Or.inr ?_
        unfold fetchIssued
        rw [step_fire s _ hdcr ho (Option.some_ne_none _)]
  | dragOrigin c =>
      by_cases hgm : s.currentRoute.geometry = none
      · refine Or.inl ?_
        rw [step_currentRoute]
        exact hgm
      · obtain ⟨ho, hd⟩ := hinv.1 hgm
        refine Or.inr ?_
        unfold fetchIssued
        rw [step_fire s _ hdcr (Option.some_ne_none _) hd]
  | dragDestination c =>
      by_cases hgm : s.currentRoute.geometry = none
      · refine Or.inl ?_
        rw [step_currentRoute]
        exact hgm
      · obtain ⟨ho, hd⟩ := hinv.1 hgm
        refine Or.inr ?_
        unfold fetchIssued
        rw [step_fire s _ hdcr ho (Option.some_ne_none _)]
  | snapIssue =>
      exfalso
      by_cases hg : s.currentRoute.geometry.isSome
      · rw [rawStep_snapIssue_pos s hg] at hdcr
        rcases hdcr with h | h | h <;> exact h rfl
      · rw [rawStep_snapIssue_neg s hg] at hdcr
        exact depsChanged_self s hdcr
  | snapArrive p =>
      by_cases hp : s.pendingSnaps ≠ 0
      · obtain ⟨ho, hd⟩ := hinv.2.2 hp
        have hox : (rawStep s (.snapArrive p)).currentRoute.origin ≠
            none := by
          rw [rawStep_snapArrive_pos s p hp]
          exact ho
        have hdx : (rawStep s (.snapArrive p)).currentRoute.destination ≠
            none := by
          rw [rawStep_snapArrive_pos s p hp]
          exact hd
        refine Or.inr ?_
        unfold fetchIssued
        rw [step_fire s _ hdcr hox hdx]
      · exfalso
        rw [rawStep_snapArrive_neg s p hp] at hdcr
        exact depsChanged_self s hdcr
  | fetchArrive resp =>
      exfalso
      by_cases hp : s.pendingFetches ≠ 0
      · rw [rawStep_fetchArrive_pos s resp hp] at hdcr
        have hf := applyFetchResponse_fields s.currentRoute resp
        have e1 : ({ s with
            currentRoute := (applyFetchResponse s.currentRoute resp).1
            pendingFetches := s.pendingFetches - 1 } :
            AppState).currentRoute.origin = s.currentRoute.origin :=
          hf.2.1
        have e2 : ({ s with
            currentRoute := (applyFetchResponse s.currentRoute resp).1
            pendingFetches := s.pendingFetches - 1 } :
            AppState).currentRoute.destination =
            s.currentRoute.destination := hf.2.2.1
        have e3 : ({ s with
            currentRoute := (applyFetchResponse s.currentRoute resp).1
            pendingFetches := s.pendingFetches - 1 } :
            AppState).currentRoute.rerouteSnapPoint =
            s.currentRoute.rerouteSnapPoint := hf.2.2.2
        rcases hdcr with h | h | h
        · exact h (by rw [e1])
        · exact h (by rw [e2])
        · exact h (by rw [e3])
      · rw [rawStep_fetchArrive_neg s resp hp] at hdcr
        exact depsChanged_self s hdcr
  | save =>
      by_cases hc : completeCurrent s
      · obtain ⟨ho, hd, hg⟩ := hc
        obtain ⟨o, ho⟩ := Option.ne_none_iff_exists'.mp ho
        obtain ⟨d, hd⟩ := Option.ne_none_iff_exists'.mp hd
        obtain ⟨g, hg⟩ := Option.ne_none_iff_exists'.mp hg
        refine Or.inl ?_
        rw [step_currentRoute]
        show (saveRoute s).currentRoute.geometry = none
        rw [saveRoute_of_complete s o d g ho hd hg]
      · exfalso
        have he : rawStep s .save = s := saveRoute_of_not_complete s hc
        rw [he] at hdcr
        exact depsChanged_self s hdcr
  | removeSaved i =>
      exfalso
      rcases hdcr with h | h | h <;> exact h rfl

/-- A run that sets both endpoints, receives its route, drags the
origin (issuing a refetch), saves while that refetch is in flight, and
then receives the late response on the freshly reset route. -/
def staleFetchOps : List Op :=
  [.setOrigin (0, 0) "a", .setDestination (1, 1) "b",
   .fetchArrive (some [[(0, 0), (1, 1)]]), .dragOrigin (2, 2), .save,
   .fetchArrive (some [[(2, 2), (1, 1)]])]

/-- C5 counterexample: the directions response is applied
unconditionally when it lands, so a request still in flight when Save
resets the current route writes its geometry onto a route whose
endpoints are both null — the state claimed impossible ("geometry is
only meaningful once both origin and destination are set") is
reachable. -/
theorem stale_fetch_overwrites_reset_route :
    (runOps staleFetchOps).currentRoute.geometry ≠ none ∧
    (runOps staleFetchOps).currentRoute.origin = none ∧
    (runOps staleFetchOps).currentRoute.destination = none := by decide

/-- C5 (amended): provided the Save action never fires while a
directions or map-matching request is in flight, in every reachable
state a non-null geometry implies both endpoints are set, and whenever
an event changes the fetch effect's dependencies (origin coordinates,
destination coordinates, or the reroute snap point) the geometry after
the event is either null or stale with a fresh directions request
issued for the changed inputs.  Without the proviso a late response can
land after the promotion reset and leave a non-null geometry on a route
with empty endpoints. -/
theorem geometry_staleness_spec (ops : List Op) (op : Op)
    (hno : NoSaveWhileInFlight initState ops = true) :
    ((runOps ops).currentRoute.geometry ≠ none →
      (runOps ops).currentRoute.origin ≠ none ∧
      (runOps ops).currentRoute.destination ≠ none) ∧
    (depsChanged (runOps ops) (step (runOps ops) op) →
      (step (runOps ops) op).currentRoute.geometry = none ∨
      fetchIssued (runOps ops) op) := by
  have hinv : EndpointInv (runOps ops) :=
    foldl_step_inv_guarded EndpointInv endpointInv_step ops initState hno
      endpointInv_init
  exact ⟨hinv.1, fun hdc => depsChange_stale_or_refetch (runOps ops) op
    hinv hdc⟩

/-- A save-free run used by the C5 and C10 witnesses: both endpoints
set, the route received, a snap issued and its result received. -/
def demoFlowOps : List Op :=
  [.setOrigin (0, 0) "a", .setDestination (1, 1) "b",
   .fetchArrive (some [[(0, 0), (1, 1)]])]

/-- Witness for C5 (amended): after the save-free demo run, dragging
the origin marker leaves a stale geometry but fires a fresh directions
request. -/
theorem geometry_staleness_spec_witness :
    ((runOps demoFlowOps).currentRoute.origin ≠ none ∧
      (runOps demoFlowOps).currentRoute.destination ≠ none) ∧
    ((step (runOps demoFlowOps) (.dragOrigin (2, 2))).currentRoute.geometry =
        none ∨
      fetchIssued (runOps demoFlowOps) (.dragOrigin (2, 2))) :=
  ⟨(geometry_staleness_spec demoFlowOps (.dragOrigin (2, 2))
      (by decide)).1 (by decide),
   (geometry_staleness_spec demoFlowOps (.dragOrigin (2, 2))
      (by decide)).2 (by decide)⟩

/-- The snap-scope invariant maintained while no promotion crosses an
in-flight request: a non-null snap point, or an in-flight snap request,
certifies a non-null geometry. -/
def SnapGeometryInv (s : AppState) : Prop :=
  (s.currentRoute.rerouteSnapPoint ≠ none →
    s.currentRoute.geometry ≠ none) ∧
  (s.pendingSnaps ≠ 0 → s.currentRoute.geometry ≠ none)

theorem snapGeometryInv_init : SnapGeometryInv initState :=
  ⟨fun h => absurd rfl h, fun h => absurd rfl h⟩

theorem snapGeometryInv_rawStep (s : AppState) (op : Op)
    (hsafe : saveSafe s op = true) (h : SnapGeometryInv s) :
    SnapGeometryInv (rawStep s op) := by
  obtain ⟨h1, h2⟩ := h
  cases op with
  | setOrigin c addr => exact ⟨h1, h2⟩
  | setDestination c addr => exact ⟨h1, h2⟩
  | dragOrigin c => exact ⟨h1, h2⟩
  | dragDestination c => exact ⟨h1, h2⟩
  | snapIssue =>
      by_cases hg : s.currentRoute.geometry.isSome
      · rw [rawStep_snapIssue_pos s hg]
        exact ⟨h1, fun _ => Option.isSome_iff_ne_none.mp hg⟩
      · rw [rawStep_snapIssue_neg s hg]
        exact ⟨h1, h2⟩
  | snapArrive p =>
      by_cases hp : s.pendingSnaps ≠ 0
      · rw [rawStep_snapArrive_pos s p hp]
        exact ⟨fun _ => h2 hp, fun _ => h2 hp⟩
      · rw [rawStep_snapArrive_neg s p hp]
        exact ⟨h1, h2⟩
  | fetchArrive resp =>
      by_cases hp : s.pendingFetches ≠ 0
      · rw [rawStep_fetchArrive_pos s resp hp]
        have hsnap : (applyFetchResponse s.currentRoute
            resp).1.rerouteSnapPoint = s.currentRoute.rerouteSnapPoint :=
          (applyFetchResponse_fields s.currentRoute resp).2.2.2
        rcases applyFetchResponse_geometry s.currentRoute resp with
          hgeq | ⟨g, hgs⟩
        · refine ⟨fun hsn => ?_, fun hp' => ?_⟩
          · show (applyFetchResponse s.currentRoute resp).1.geometry ≠ none
            rw [hgeq]
            refine h1 ?_
            rw [← hsnap]
            exact hsn
          · show (applyFetchResponse s.currentRoute resp).1.geometry ≠ none
            rw [hgeq]
            exact h2 hp'
        · refine ⟨fun _ => ?_, fun _ => ?_⟩
          · show (applyFetchResponse s.currentRoute resp).1.geometry ≠ none
            rw [hgs]
            exact Option.some_ne_none g
          · show (applyFetchResponse s.currentRoute resp).1.geometry ≠ none
            rw [hgs]
            exact Option.some_ne_none g
      · rw [rawStep_fetchArrive_neg s resp hp]
        exact ⟨h1, h2⟩
  | save =>
      have hsf : s.pendingFetches = 0 ∧ s.pendingSnaps = 0 := by
        have hparts := Bool.and_eq_true_iff.mp hsafe
        exact ⟨of_decide_eq_true hparts.1, of_decide_eq_true hparts.2⟩
      by_cases hc : completeCurrent s
      · obtain ⟨ho, hd, hg⟩ := hc
        obtain ⟨o, ho⟩ := Option.ne_none_iff_exists'.mp ho
        obtain ⟨d, hd⟩ := Option.ne_none_iff_exists'.mp hd
        obtain ⟨g, hg⟩ := Option.ne_none_iff_exists'.mp hg
        show SnapGeometryInv (saveRoute s)
        rw [saveRoute_of_complete s o d g ho hd hg]
        exact ⟨fun hsn => absurd rfl hsn, fun hp => absurd hsf.2 hp⟩
      · show SnapGeometryInv (saveRoute s)
        rw [saveRoute_of_not_complete s hc]
        exact ⟨h1, h2⟩
  | removeSaved i => exact ⟨h1, h2⟩

theorem snapGeometryInv_step (s : AppState) (op : Op)
    (hsafe : saveSafe s op = true) (h : SnapGeometryInv s) :
    SnapGeometryInv (step s op) := by
  have hr := snapGeometryInv_rawStep s op hsafe h
  rcases step_char s op with heq | ⟨heq, _, _⟩
  · rw [heq]; exact hr
  · rw [heq]; exact ⟨fun hsn => hr.1 hsn, fun hp => hr.2 hp⟩

/-- A run that sets both endpoints, receives its route, issues a snap
while dragging, saves while the snap request is in flight, and receives
the late snap result on the freshly reset route. -/
def lateSnapOps : List Op :=
  [.setOrigin (0, 0) "a", .setDestination (1, 1) "b",
   .fetchArrive (some [[(0, 0), (1, 1)]]), .snapIssue, .save,
   .snapArrive (2, 2)]

/-- C10 counterexample: the handlers check `currentRoute.geometry`
before the asynchronous map-matching call, but the `.then` continuation
writes `rerouteSnapPoint` unconditionally when the result lands, so a
snap request still in flight when Save resets the current route writes
a snap point onto a route with no geometry — the claimed invariant
fails on this reachable state. -/
theorem late_snap_write_violates_geometry_invariant :
    (runOps lateSnapOps).currentRoute.rerouteSnapPoint ≠ none ∧
    (runOps lateSnapOps).currentRoute.geometry = none := by decide

/-- C10 (amended): provided the Save action never fires while a
directions or map-matching request is in flight, in every reachable
state a non-null reroute snap point implies a non-null geometry: snap
requests are only issued when a geometry exists, and the promotion
reset clears both together.  Without the proviso a late snap result can
land after the reset and leave a snap point on a route with no
geometry. -/
theorem snap_point_implies_geometry (ops : List Op)
    (hno : NoSaveWhileInFlight initState ops = true)
    (hsnap : (runOps ops).currentRoute.rerouteSnapPoint ≠ none) :
    (runOps ops).currentRoute.geometry ≠ none :=
  (foldl_step_inv_guarded SnapGeometryInv snapGeometryInv_step ops
    initState hno snapGeometryInv_init).1 hsnap

set_option maxHeartbeats 2000000 in
/-- Witness for C10 (amended): in a save-free run with a snap issued
and received, the snap point is non-null and so is the geometry. -/
theorem snap_point_implies_geometry_witness :
    (runOps (demoFlowOps ++
      [.snapIssue, .snapArrive (2, 2)])).currentRoute.geometry ≠ none :=
  snap_point_implies_geometry
    (demoFlowOps ++ [.snapIssue, .snapArrive (2, 2)])
    (by decide) (by decide)

/-- Trailing-edge semantics of one lodash `debounce` instance (wait =
500 ms in the source): given the timestamped calls received by that one
instance in order, a call's arguments are executed only if no further
call arrives within `wait` of it; interim calls are discarded, never
queued. -/
def debounceFires (wait : ℚ) : List (ℚ × Coord) → List (ℚ × Coord)
  | [] => []
  | e1 :: rest =>
      match rest with
      | [] => [e1]
      | e2 :: _ =>
          if e2.1 - e1.1 < wait then debounceFires wait rest
          else e1 :: debounceFires wait rest

/-- For a single instance, a burst whose consecutive gaps are all below
the wait interval collapses to one execution carrying the last call's
arguments. -/
theorem debounceFires_burst (wait : ℚ) :
    ∀ events : List (ℚ × Coord), ∀ e : ℚ × Coord,
      events.getLast? = some e →
      events.Chain' (fun a b => b.1 - a.1 < wait) →
      debounceFires wait events = [e] := by
  intro events
  induction events with
  | nil => intro e hlast _; simp at hlast
  | cons e1 rest ih =>
      intro e hlast hgaps
      cases rest with
      | nil =>
          simp only [List.getLast?_singleton, Option.some.injEq] at hlast
          rw [hlast]
          rfl
      | cons e2 rest2 =>
          have hgap : e2.1 - e1.1 < wait := (List.chain'_cons.mp hgaps).1
          have hgaps2 : List.Chain' (fun a b => b.1 - a.1 < wait)
              (e2 :: rest2) := (List.chain'_cons.mp hgaps).2
          have hlast2 : (e2 :: rest2).getLast? = some e := by
            rw [← hlast, List.getLast?_cons_cons]
          show (if e2.1 - e1.1 < wait then debounceFires wait (e2 :: rest2)
              else e1 :: debounceFires wait (e2 :: rest2)) = [e]
          rw [if_pos hgap]
          exact ih e hlast2 hgaps2

/-- The debounced snap channel as the program actually manages it:
`debounce(snapPointToRoad, 500)` is rebuilt on every render (`App.tsx`
line 246).  When a re-render lands mid-burst — for instance a previous
snap or fetch result arriving and updating state — the pointer-move
calls made so far went to the old instance, whose pending trailing
timer is never cancelled and fires with that instance's last argument,
while the later calls go to the fresh instance.  The issued snap
requests are the fires of both instances. -/
def debounceFiresAcrossRender (wait : ℚ)
    (eventsBeforeRender eventsAfterRender : List (ℚ × Coord)) :
    List (ℚ × Coord) :=
  debounceFires wait eventsBeforeRender ++
    debounceFires wait eventsAfterRender

/-- C8: the per-render recreation defeats the debounce.  For ten
pointer moves inside a 100 ms window a single persistent channel would
issue one request with the last coordinate (first conjunct), but with a
re-render after the fifth move the program issues two requests, the
first carrying the interim fifth coordinate, which differs from the
last coordinate (remaining conjuncts) — against the claimed at most one
request using the last event's coordinate. -/
theorem debounce_recreated_across_render_fires_twice :
    debounceFires 500
      [(0, (0, 0)), (10, (1, 1)), (20, (2, 2)), (30, (3, 3)), (40, (4, 4)),
       (50, (5, 5)), (60, (6, 6)), (70, (7, 7)), (80, (8, 8)),
       (90, (9, 9))] = [(90, (9, 9))] ∧
    debounceFiresAcrossRender 500
      [(0, (0, 0)), (10, (1, 1)), (20, (2, 2)), (30, (3, 3)), (40, (4, 4))]
      [(50, (5, 5)), (60, (6, 6)), (70, (7, 7)), (80, (8, 8)),
       (90, (9, 9))] = [(40, (4, 4)), (90, (9, 9))] ∧
    ((4 : ℚ), (4 : ℚ)) ≠ ((9 : ℚ), (9 : ℚ)) := by
  refine ⟨?_, ?_, ?_⟩
  · norm_num [debounceFires]
  · norm_num [debounceFiresAcrossRender, debounceFires]
  · norm_num

/-- One candidate of the alternatives variant (`Route` interface of the
alternatives source file): geometry plus distance and duration. -/
structure AltRoute where
  geometry : Geometry
  distance : ℚ
  duration : ℚ
deriving DecidableEq, Repr

/-- Insert a candidate after every already-placed candidate whose
distance is less than or equal to its own.  Folding this over the input
implements a stable ascending sort by distance, the behaviour the
ES2019-and-later `Array.prototype.sort` contract guarantees for the
comparator `(a, b) => a.distance - b.distance` used by `getRoutes`. -/
def insertByDistance (r : AltRoute) : List AltRoute → List AltRoute
  | [] => [r]
  | x :: xs =>
      if x.distance ≤ r.distance then x :: insertByDistance r xs
      else r :: x :: xs

/-- The `data.sort((a, b) => a.distance - b.distance)` call of
`getRoutes`: a stable sort, ascending by distance. -/
def sortByDistance (rs : List AltRoute) : List AltRoute :=
  rs.foldl (fun acc r => insertByDistance r acc) []

theorem insertByDistance_perm (r : AltRoute) :
    ∀ l : List AltRoute, List.Perm (insertByDistance r l) (r :: l) := by
  intro l
  induction l with
  | nil => exact List.Perm.refl _
  | cons x xs ih =>
      show List.Perm (if x.distance ≤ r.distance then
          x :: insertByDistance r xs else r :: x :: xs) (r :: x :: xs)
      split
      · exact (ih.cons x).trans (List.Perm.swap r x xs)
      · exact List.Perm.refl _

theorem sortFold_perm :
    ∀ (rs acc : List AltRoute),
      List.Perm (rs.foldl (fun acc r => insertByDistance r acc) acc)
        (acc ++ rs) := by
  intro rs
  induction rs with
  | nil => intro acc; simp
  | cons r rs ih =>
      intro acc
      refine (ih (insertByDistance r acc)).trans ?_
      refine (List.Perm.append_right rs (insertByDistance_perm r acc)).trans
        ?_
      exact List.perm_middle.symm

/-- The sort is a permutation of its input. -/
theorem sortByDistance_perm (rs : List AltRoute) :
    List.Perm (sortByDistance rs) rs :=
  sortFold_perm rs []

theorem insertByDistance_mem (r : AltRoute) :
    ∀ (l : List AltRoute) (y : AltRoute),
      y ∈ insertByDistance r l → y = r ∨ y ∈ l := by
  intro l
  induction l with
  | nil =>
      intro y hy
      exact Or.inl (List.mem_singleton.mp hy)
  | cons x xs ih =>
      intro y hy
      rw [show insertByDistance r (x :: xs) =
          (if x.distance ≤ r.distance then x :: insertByDistance r xs
           else r :: x :: xs) from rfl] at hy
      split at hy
      · rcases List.mem_cons.mp hy with rfl | hy'
        · exact Or.inr (List.mem_cons_self _ _)
        · rcases ih y hy' with h | h
          · exact Or.inl h
          · exact Or.inr (List.mem_cons_of_mem x h)
      · rcases List.mem_cons.mp hy with rfl | hy'
        · exact Or.inl rfl
        · exact Or.inr hy'

theorem insertByDistance_sorted (r : AltRoute) :
    ∀ l : List AltRoute,
      l.Pairwise (fun a b => a.distance ≤ b.distance) →
      (insertByDistance r l).Pairwise
        (fun a b => a.distance ≤ b.distance) := by
  intro l
  induction l with
  | nil => intro _; exact List.pairwise_singleton _ r
  | cons x xs ih =>
      intro h
      obtain ⟨hx, hxs⟩ := List.pairwise_cons.mp h
      show ((if x.distance ≤ r.distance then x :: insertByDistance r xs
          else r :: x :: xs)).Pairwise (fun a b => a.distance ≤ b.distance)
      split
      · next hle =>
          rw [List.pairwise_cons]
          refine ⟨?_, ih hxs⟩
          intro y hy
          rcases insertByDistance_mem r xs y hy with rfl | hy'
          · exact hle
          · exact hx y hy'
      · next hgt =>
          rw [List.pairwise_cons]
          refine ⟨?_, h⟩
          intro y hy
          rcases List.mem_cons.mp hy with rfl | hy'
          · exact le_of_not_le hgt
          · exact le_trans (le_of_not_le hgt) (hx y hy')

theorem sortFold_sorted :
    ∀ (rs acc : List AltRoute),
      acc.Pairwise (fun a b => a.distance ≤ b.distance) →
      (rs.foldl (fun acc r => insertByDistance r acc) acc).Pairwise
        (fun a b => a.distance ≤ b.distance) := by
  intro rs
  induction rs with
  | nil => intro acc h; exact h
  | cons r rs ih =>
      intro acc h
      exact ih (insertByDistance r acc) (insertByDistance_sorted r acc h)

/-- The sort's output is ascending in distance. -/
theorem sortByDistance_sorted (rs : List AltRoute) :
    (sortByDistance rs).Pairwise (fun a b => a.distance ≤ b.distance) :=
  sortFold_sorted rs [] List.Pairwise.nil

/-- The uniqueness check of `getRoutes`: the candidate's coordinate
sequence (compared via `toString` in the source, which separates exactly
the distinct coordinate lists) differs from every already-accepted
route's. -/
def isUniqueRoute (data : List AltRoute) (r : AltRoute) : Bool :=
  data.all fun x => decide (x.geometry ≠ r.geometry)

/-- The for-loop of `getRoutes` over the synthetic via-point attempts:
each entry of the attempt list is one `fetchRoute` outcome (`none` = the
request failed and returned null).  A candidate is pushed only when
unique among the accepted ones, and the loop breaks as soon as
`maxRouteCount` candidates are collected. -/
def addCandidates (maxCount : Nat) :
    List AltRoute → List (Option AltRoute) → List AltRoute
  | data, [] => data
  | data, none :: rest => addCandidates maxCount data rest
  | data, some r :: rest =>
      if isUniqueRoute data r then
        if maxCount ≤ (data ++ [r]).length then data ++ [r]
        else addCandidates maxCount (data ++ [r]) rest
      else addCandidates maxCount data rest

/-- getRoutes of the alternatives variant (lines 94-150): the native
alternatives response is sorted ascending by distance; if fewer than
`maxCount` candidates arrived, the via-point retry loop adds unique
synthesized candidates; finally the list is truncated to `maxCount`. -/
def getRoutesResult (maxCount : Nat) (native : List AltRoute)
    (attempts : List (Option AltRoute)) : List AltRoute :=
  let sorted := sortByDistance native
  let data :=
    if sorted.length < maxCount then addCandidates maxCount sorted attempts
    else sorted
  data.take maxCount

/-- getRoutes with the source's hard-coded `maxRouteCount = 2`. -/
def getRoutes (native : List AltRoute)
    (attempts : List (Option AltRoute)) : List AltRoute :=
  getRoutesResult 2 native attempts

theorem addCandidates_pairwise (maxCount : Nat) :
    ∀ (attempts : List (Option AltRoute)) (data : List AltRoute),
      data.Pairwise (fun a b => a.geometry ≠ b.geometry) →
      (addCandidates maxCount data attempts).Pairwise
        (fun a b => a.geometry ≠ b.geometry) := by
  intro attempts
  induction attempts with
  | nil => intro data h; exact h
  | cons o rest ih =>
      intro data h
      cases o with
      | none => exact ih data h
      | some r =>
          show (if isUniqueRoute data r then
              (if maxCount ≤ (data ++ [r]).length then data ++ [r]
               else addCandidates maxCount (data ++ [r]) rest)
            else addCandidates maxCount data rest).Pairwise _
          by_cases hu : isUniqueRoute data r = true
          · rw [if_pos hu]
            have hpush : (data ++ [r]).Pairwise
                (fun a b => a.geometry ≠ b.geometry) := by
              rw [List.pairwise_append]
              refine ⟨h, List.pairwise_singleton _ _, ?_⟩
              intro x hx y hy
              rw [List.mem_singleton] at hy
              subst hy
              exact of_decide_eq_true (List.all_eq_true.mp hu x hx)
            by_cases hlen : maxCount ≤ (data ++ [r]).length
            · rw [if_pos hlen]; exact hpush
            · rw [if_neg hlen]; exact ih (data ++ [r]) hpush
          · rw [if_neg hu]; exact ih data h

/-- A duplicated native candidate, for the C6 counterexample. -/
def dupRoute : AltRoute := { geometry := [(0, 0), (1, 1)], distance := 5
                             duration := 5 }

/-- C6 counterexample: when the alternatives response itself contains
two candidates with the same coordinate sequence, `getRoutes` returns
both — the uniqueness check is applied only to synthesized candidates,
never among the native ones — refuting the unconditional "never returns
two candidates with identical coordinate sequences". -/
theorem getRoutes_duplicate_native_counterexample :
    ¬ (getRoutes [dupRoute, dupRoute] []).Pairwise
      (fun a b => a.geometry ≠ b.geometry) := by decide

/-- C6 (amended): provided the service's native candidates are pairwise
distinct in coordinate sequence, `getRoutes` never returns two
candidates with identical coordinate sequences — a synthesized candidate
is appended only if its coordinate sequence differs from every
already-accepted one — and the returned list's length is
min(desiredCount, what the natives plus the attempt budget yielded),
the final list being truncated to desiredCount. -/
theorem getRoutes_dedup_spec (maxCount : Nat) (native : List AltRoute)
    (attempts : List (Option AltRoute))
    (hnat : native.Pairwise (fun a b => a.geometry ≠ b.geometry)) :
    (getRoutesResult maxCount native attempts).Pairwise
      (fun a b => a.geometry ≠ b.geometry) ∧
    (getRoutesResult maxCount native attempts).length =
      min maxCount
        (if (sortByDistance native).length < maxCount
         then (addCandidates maxCount (sortByDistance native) attempts).length
         else (sortByDistance native).length) := by
  have hsorted : (sortByDistance native).Pairwise
      (fun a b => a.geometry ≠ b.geometry) :=
    (List.Perm.pairwise_iff (fun {x y} h => Ne.symm h)
      (sortByDistance_perm native)).mpr hnat
  constructor
  · show ((if (sortByDistance native).length < maxCount
        then addCandidates maxCount (sortByDistance native) attempts
        else sortByDistance native).take maxCount).Pairwise _
    by_cases hlt : (sortByDistance native).length < maxCount
    · rw [if_pos hlt]
      exact (addCandidates_pairwise maxCount attempts _ hsorted).sublist
        (List.take_sublist _ _)
    · rw [if_neg hlt]
      exact hsorted.sublist (List.take_sublist _ _)
  · show ((if (sortByDistance native).length < maxCount
        then addCandidates maxCount (sortByDistance native) attempts
        else sortByDistance native).take maxCount).length = _
    by_cases hlt : (sortByDistance native).length < maxCount
    · rw [if_pos hlt, if_pos hlt]
      exact List.length_take _ _
    · rw [if_neg hlt, if_neg hlt]
      exact List.length_take _ _

/-- Witness for C6 (amended): one native candidate plus one distinct
synthesized candidate give a duplicate-free list of length
min(2, 2) = 2. -/
theorem getRoutes_dedup_spec_witness :
    (getRoutesResult 2 [{ geometry := [(0, 0)], distance := 1, duration := 1 }]
      [some { geometry := [(2, 2)], distance := 3, duration := 3 }]).Pairwise
      (fun a b => a.geometry ≠ b.geometry) ∧
    (getRoutesResult 2 [{ geometry := [(0, 0)], distance := 1, duration := 1 }]
      [some { geometry := [(2, 2)], distance := 3, duration := 3 }]).length =
      min 2
        (if (sortByDistance
            [{ geometry := [(0, 0)], distance := 1, duration := 1 }]).length <
            2
         then (addCandidates 2 (sortByDistance
            [{ geometry := [(0, 0)], distance := 1, duration := 1 }])
            [some { geometry := [(2, 2)], distance := 3,
                    duration := 3 }]).length
         else (sortByDistance
            [{ geometry := [(0, 0)], distance := 1,
               duration := 1 }]).length) :=
  getRoutes_dedup_spec 2
    [{ geometry := [(0, 0)], distance := 1, duration := 1 }]
    [some { geometry := [(2, 2)], distance := 3, duration := 3 }]
    (by decide)

/-- C7: the sort of `getRoutes` is ascending by distance (so the primary
first route has minimal distance) and stable; in particular for input
distances [120, 95, 95] the sorted order is exactly [second, third,
first]: the primary is a 95-distance entry and the two tied entries keep
their request order. -/
theorem sort_stability_spec :
    (∀ rs : List AltRoute,
      (sortByDistance rs).Pairwise (fun a b => a.distance ≤ b.distance) ∧
      List.Perm (sortByDistance rs) rs) ∧
    (∀ a b c : AltRoute, a.distance = 120 → b.distance = 95 →
      c.distance = 95 → sortByDistance [a, b, c] = [b, c, a]) := by
  refine ⟨fun rs => ⟨sortByDistance_sorted rs, sortByDistance_perm rs⟩, ?_⟩
  intro a b c ha hb hc
  show insertByDistance c (insertByDistance b (insertByDistance a [])) =
    [b, c, a]
  norm_num [insertByDistance, ha, hb, hc]

/-- Witness for C7: three concrete candidates with distances
[120, 95, 95] sort to [second, third, first]. -/
theorem sort_stability_spec_witness :
    sortByDistance
      [{ geometry := [(0, 0)], distance := 120, duration := 1 },
       { geometry := [(1, 1)], distance := 95, duration := 1 },
       { geometry := [(2, 2)], distance := 95, duration := 1 }] =
      [{ geometry := [(1, 1)], distance := 95, duration := 1 },
       { geometry := [(2, 2)], distance := 95, duration := 1 },
       { geometry := [(0, 0)], distance := 120, duration := 1 }] :=
  sort_stability_spec.2
    { geometry := [(0, 0)], distance := 120, duration := 1 }
    { geometry := [(1, 1)], distance := 95, duration := 1 }
    { geometry := [(2, 2)], distance := 95, duration := 1 }
    rfl rfl rfl
